import Mathlib

/-!
Verification development for the TwelveLabs-on-Bedrock video understanding
backend (`backend/main.py`).

The Python source is shallowly embedded: every handler and helper that the
claims touch is translated into a pure Lean function.  External collaborators
(S3, Bedrock, OpenSearch, the S3-Vectors service) are modelled as explicit
environment/oracle parameters, and their effects (writes into the two vector
backends, the job ledger) are threaded as explicit state.  Numbers that the
Python code manipulates as floats (`startSec`, `endSec`, scores, wall-clock
seconds) are modelled as rationals; Python strings are Lean `String`s, and the
string operations used by the source (`split`, `replace`, `rsplit`,
containment) are implemented as structurally recursive functions on the
underlying character lists so that they are fully computable.
-/

/-! ## Character-list string helpers (models of the Python string methods) -/

/-- Model of Python `s.replace('s3://', '')`: removes every occurrence of the
five-character pattern `s3://`. -/
def removeS3Scheme : List Char → List Char
  | 's' :: '3' :: ':' :: '/' :: '/' :: rest => removeS3Scheme rest
  | c :: rest => c :: removeS3Scheme rest
  | [] => []

/-- Model of Python `s.split('/')`: split on every slash; always returns a
non-empty list of (possibly empty) parts. -/
def splitSlash : List Char → List (List Char)
  | [] => [[]]
  | '/' :: rest => [] :: splitSlash rest
  | c :: rest =>
    match splitSlash rest with
    | h :: t => (c :: h) :: t
    | [] => [[c]]

/-- Model of Python `s.split('/', 1)`: the part before the first slash and,
if a slash exists, the remainder after it. -/
def splitSlashOnce : List Char → List Char × Option (List Char)
  | [] => ([], none)
  | '/' :: rest => ([], some rest)
  | c :: rest =>
    let p := splitSlashOnce rest
    (c :: p.1, p.2)

/-- Model of Python `s.rsplit('.', 1)[0]` when `'.' in s`: `some` of the text
before the last dot, or `none` when the string has no dot. -/
def beforeLastDot : List Char → Option (List Char)
  | [] => none
  | c :: rest =>
    match beforeLastDot rest with
    | some r => some (c :: r)
    | none => if c = '.' then some [] else none

/-- Model of Python substring containment `pat in s`. -/
def listContainsSub (pat : List Char) : List Char → Bool
  | [] => pat.isEmpty
  | c :: rest => pat.isPrefixOf (c :: rest) || listContainsSub pat rest

/-! ## Digits of `Nat.repr`: no underscore, and injectivity

The derived segment key is `f"{video_id}_segment_{i}_{startSec}"`; to reason
about distinctness of keys across indices we need that the decimal rendering
of a natural number contains no underscore and is injective. -/

theorem digitChar_ne_underscore (m : Nat) : Nat.digitChar m ≠ '_' := by
  rcases lt_or_ge m 16 with h | h
  · interval_cases m <;> decide
  · unfold Nat.digitChar
    have h0 : ¬ (m = 0) := by omega
    have h1 : ¬ (m = 1) := by omega
    have h2 : ¬ (m = 2) := by omega
    have h3 : ¬ (m = 3) := by omega
    have h4 : ¬ (m = 4) := by omega
    have h5 : ¬ (m = 5) := by omega
    have h6 : ¬ (m = 6) := by omega
    have h7 : ¬ (m = 7) := by omega
    have h8 : ¬ (m = 8) := by omega
    have h9 : ¬ (m = 9) := by omega
    have h10 : ¬ (m = 10) := by omega
    have h11 : ¬ (m = 11) := by omega
    have h12 : ¬ (m = 12) := by omega
    have h13 : ¬ (m = 13) := by omega
    have h14 : ¬ (m = 14) := by omega
    have h15 : ¬ (m = 15) := by omega
    simp only [h0, h1, h2, h3, h4, h5, h6, h7, h8, h9, h10, h11, h12, h13, h14, h15,
      if_false]
    decide

theorem toDigitsCore_ne_underscore (fuel n : Nat) (ds : List Char)
    (hds : '_' ∉ ds) : '_' ∉ Nat.toDigitsCore 10 fuel n ds := by
  induction fuel generalizing n ds with
  | zero => simpa [Nat.toDigitsCore] using hds
  | succ fuel ih =>
    rw [Nat.toDigitsCore]
    have hd : '_' ∉ Nat.digitChar (n % 10) :: ds := by
      intro hmem
      rcases List.mem_cons.1 hmem with hc | hc
      · exact digitChar_ne_underscore (n % 10) hc.symm
      · exact hds hc
    by_cases hz : n / 10 = 0
    · simpa [hz] using hd
    · simpa [hz] using ih (n / 10) _ hd

theorem repr_ne_underscore (n : Nat) : '_' ∉ (Nat.repr n).data := by
  have : '_' ∉ Nat.toDigitsCore 10 (n + 1) n [] :=
    toDigitsCore_ne_underscore (n + 1) n [] (by simp)
  simpa [Nat.repr, Nat.toDigits, List.asString] using this

/-- Decimal digit value of the digit characters emitted by `Nat.digitChar`. -/
def digitVal (c : Char) : Nat := c.toNat - '0'.toNat

/-- Value of a most-significant-first digit string. -/
def valOfDigits : List Char → Nat
  | [] => 0
  | c :: cs => digitVal c * 10 ^ cs.length + valOfDigits cs

theorem digitVal_digitChar (m : Nat) (h : m < 10) :
    digitVal (Nat.digitChar m) = m := by
  interval_cases m <;> decide

theorem toDigitsCore_length (fuel n : Nat) (ds : List Char) :
    ∃ pre : List Char, Nat.toDigitsCore 10 fuel n ds = pre ++ ds := by
  induction fuel generalizing n ds with
  | zero => exact ⟨[], by simp [Nat.toDigitsCore]⟩
  | succ fuel ih =>
    rw [Nat.toDigitsCore]
    by_cases hz : n / 10 = 0
    · exact ⟨[Nat.digitChar (n % 10)], by simp [hz]⟩
    · rcases ih (n / 10) (Nat.digitChar (n % 10) :: ds) with ⟨pre, hpre⟩
      exact ⟨pre ++ [Nat.digitChar (n % 10)], by simp [hz, hpre]⟩

theorem valOfDigits_append (a b : List Char) :
    valOfDigits (a ++ b) = valOfDigits a * 10 ^ b.length + valOfDigits b := by
  induction a with
  | nil => simp [valOfDigits]
  | cons c cs ih =>
    simp only [List.cons_append, valOfDigits, ih, List.append_eq, List.length_append,
      pow_add]
    ring

theorem valOfDigits_toDigitsCore (fuel n : Nat) (ds : List Char) (hfuel : n < fuel) :
    valOfDigits (Nat.toDigitsCore 10 fuel n ds) =
      n * 10 ^ ds.length + valOfDigits ds := by
  induction fuel generalizing n ds with
  | zero => omega
  | succ fuel ih =>
    rw [Nat.toDigitsCore]
    by_cases hz : n / 10 = 0
    · have hn : n < 10 := by omega
      have hmod : n % 10 = n := Nat.mod_eq_of_lt hn
      simp only [hz, if_true, reduceIte, valOfDigits, hmod, digitVal_digitChar n hn]
    · have hlt : n / 10 < fuel := by
        have h1 : n / 10 < n := Nat.div_lt_self (by omega) (by omega)
        omega
      have hmod : n % 10 < 10 := Nat.mod_lt _ (by omega)
      rw [if_neg hz, ih (n / 10) _ hlt]
      simp only [valOfDigits, List.length_cons, digitVal_digitChar _ hmod, pow_succ]
      have hdm : n / 10 * 10 + n % 10 = n := by
        have := Nat.div_add_mod n 10
        omega
      have hkey : n / 10 * (10 ^ ds.length * 10) + n % 10 * 10 ^ ds.length
          = n * 10 ^ ds.length := by
        calc n / 10 * (10 ^ ds.length * 10) + n % 10 * 10 ^ ds.length
            = (n / 10 * 10 + n % 10) * 10 ^ ds.length := by ring
          _ = n * 10 ^ ds.length := by rw [hdm]
      omega

theorem valOfDigits_toDigits (n : Nat) :
    valOfDigits (Nat.toDigits 10 n) = n := by
  have := valOfDigits_toDigitsCore (n + 1) n [] (by omega)
  simpa [Nat.toDigits, valOfDigits] using this

theorem nat_repr_injective : Function.Injective Nat.repr := by
  intro a b hab
  have hdata : (Nat.toDigits 10 a) = (Nat.toDigits 10 b) := by
    have := congrArg String.data hab
    simpa [Nat.repr, List.asString] using this
  have := congrArg valOfDigits hdata
  rwa [valOfDigits_toDigits, valOfDigits_toDigits] at this

/-- Splitting a character list at a distinguished separator: if the separator
does not occur in either left part, the decomposition is unique. -/
theorem underscore_split_unique {a c b d : List Char}
    (ha : '_' ∉ a) (hc : '_' ∉ c)
    (h : a ++ '_' :: b = c ++ '_' :: d) : a = c ∧ b = d := by
  induction a generalizing c with
  | nil =>
    cases c with
    | nil => simpa using h
    | cons y c' =>
      simp only [List.nil_append, List.cons_append, List.cons.injEq] at h
      exfalso
      apply hc
      rw [h.1]
      exact List.mem_cons_self _ _
  | cons x a' ih =>
    cases c with
    | nil =>
      simp only [List.cons_append, List.nil_append, List.cons.injEq] at h
      exfalso
      apply ha
      rw [h.1]
      exact List.mem_cons_self _ _
    | cons y c' =>
      simp only [List.cons_append, List.cons.injEq] at h
      have ha' : '_' ∉ a' := fun hm => ha (List.mem_cons_of_mem x hm)
      have hc' : '_' ∉ c' := fun hm => hc (List.mem_cons_of_mem y hm)
      rcases ih ha' hc' h.2 with ⟨h1, h2⟩
      exact ⟨by rw [h.1, h1], h2⟩

theorem string_data_append (a b : String) : (a ++ b).data = a.data ++ b.data := by
  cases a; cases b; rfl

/-! ## Data model

`EmbeddingData` is one temporal-segment entry of the Marengo output
(`result_data['data'][i]` in the source); the Python code reads it with
`.get(key, default)`, which we model as total record fields (the defaults are
only exercised on malformed engine output).  `BedrockResponse` flattens the
nested dictionary chains the source reads with `.get(..., {})` chains:
each field is the looked-up string, `""` when any level is absent. -/

structure EmbeddingData where
  startSec : ℚ
  endSec : ℚ
  embedding : List ℚ
  embeddingOption : String
deriving DecidableEq

structure BedrockResponse where
  /-- models `bedrock_response.get('modelInput', {}).get('mediaSource', {})
      .get('s3Location', {}).get('uri', '')` -/
  modelInputUri : String
  /-- models `bedrock_response.get('outputDataConfig', {}).get('s3OutputDataConfig', {})
      .get('s3Uri', '')` -/
  outputS3Uri : String
  /-- models `bedrock_response.get('modelId', '')` -/
  modelId : String
  /-- models `bedrock_response.get('invocationArn', '')` -/
  invocationArn : String
  /-- models `bedrock_response.get('endTime', '')` -/
  endTime : String
deriving DecidableEq

/-- Embedding of `extract_video_metadata(bedrock_response)` from
`backend/main.py`: returns `(video_id, video_s3_uri)`.
Method 1 reads the original request URI; method 2 reverse-engineers the video
identity from the output path `s3://bucket/embeddings/{video_id}/`; the final
fallback parses the last path component of the S3 URI and strips its
extension. -/
def extract_video_metadata (r : BedrockResponse) : String × String :=
  -- Method 1: the original request's media source URI
  let m1 := r.modelInputUri
  -- Method 2: reconstruct from the output path structure if Method 1 fails
  let step2 : String × String :=
    if m1 = "" then
      let out := r.outputS3Uri
      if out ≠ "" ∧ listContainsSub "/embeddings/".data out.data = true then
        let path_parts := splitSlash (removeS3Scheme out.data)
        let bucket_name := path_parts.headD []
        -- `path_parts.index('embeddings')`; a missing element raised
        -- ValueError in the source, caught and treated as failure, which
        -- `List.indexOf = length` reproduces via the bounds check below
        let ei := path_parts.indexOf "embeddings".data
        if ei + 1 < path_parts.length then
          let folder := path_parts.getD (ei + 1) []
          (String.mk folder,
           String.mk ("s3://".data ++ bucket_name ++ "/videos/".data ++ folder
             ++ ".mp4".data))
        else ("unknown", "")
      else ("unknown", "")
    else ("unknown", m1)
  -- Fallback: extract the id from the S3 URI's last path component
  if step2.1 = "unknown" ∧ step2.2 ≠ "" ∧
      "s3://".data.isPrefixOf step2.2.data = true then
    let extracted_id := (splitSlash step2.2.data).getLastD []
    match beforeLastDot extracted_id with
    | some p => (String.mk p, step2.2)
    | none => (String.mk extracted_id, step2.2)
  else step2

/-! ## Dual-store embedding writer

The two vector backends are modelled as explicit states:
* S3 Vectors: a list of keyed vectors; `put_vectors` is an upsert keyed by
  `key` (per the S3 Vectors API: putting a vector with an existing key
  replaces it).
* OpenSearch: a bare list of documents; `opensearch.index(index=..., body=...)`
  without an explicit document id (the source comments that OpenSearch
  Serverless does not support one) appends a fresh auto-id document. -/

structure S3VectorMeta where
  videoId : String
  videoS3Uri : String
  segmentId : String
  startSec : ℚ
  endSec : ℚ
  duration : ℚ
  embeddingOption : String
deriving DecidableEq

structure S3Vector where
  key : String
  data : List ℚ
  metadata : S3VectorMeta
deriving DecidableEq

structure OSDocMeta where
  modelId : String
  invocationArn : String
  timestamp : String
  segmentIndex : Nat
  totalSegments : Nat
deriving DecidableEq

structure OSDocument where
  videoId : String
  videoS3Uri : String
  segmentId : String
  startSec : ℚ
  endSec : ℚ
  duration : ℚ
  embedding : List ℚ
  embeddingOption : String
  metadata : OSDocMeta
deriving DecidableEq

/-- The vector list built by the loop in `store_embeddings_to_s3_vectors`
(`for i, embedding_data in enumerate(embedding_data_list)`), starting at
index `i0` (the call site uses 0). -/
def s3vVectorsFrom (video_id video_s3_uri : String) : Nat → List EmbeddingData → List S3Vector
  | _, [] => []
  | i, e :: rest =>
    { key := video_id ++ "_segment_" ++ toString i ++ "_" ++ toString e.startSec
      data := e.embedding
      metadata :=
        { videoId := video_id
          videoS3Uri := video_s3_uri
          segmentId := video_id ++ "_segment_" ++ toString i ++ "_" ++ toString e.startSec
          startSec := e.startSec
          endSec := e.endSec
          duration := e.endSec - e.startSec
          embeddingOption := e.embeddingOption } }
      :: s3vVectorsFrom video_id video_s3_uri (i + 1) rest

/-- The document list built by the loop in `store_embeddings_to_opensearch`,
starting at index `i0`; `total` is `len(embedding_data_list)`. -/
def osDocumentsFrom (video_id video_s3_uri : String) (r : BedrockResponse)
    (total : Nat) : Nat → List EmbeddingData → List OSDocument
  | _, [] => []
  | i, e :: rest =>
    { videoId := video_id
      videoS3Uri := video_s3_uri
      segmentId := video_id ++ "_segment_" ++ toString i ++ "_" ++ toString e.startSec
      startSec := e.startSec
      endSec := e.endSec
      duration := e.endSec - e.startSec
      embedding := e.embedding
      embeddingOption := e.embeddingOption
      metadata :=
        { modelId := r.modelId
          invocationArn := r.invocationArn
          timestamp := r.endTime
          segmentIndex := i
          totalSegments := total } }
      :: osDocumentsFrom video_id video_s3_uri r total (i + 1) rest

/-- One upsert into the S3 Vectors index state: replace the entry with the
same key if present, else append. -/
def upsertVector (st : List S3Vector) (v : S3Vector) : List S3Vector :=
  if st.any (fun w => w.key == v.key) then
    st.map (fun w => if w.key = v.key then v else w)
  else st ++ [v]

/-- Model of `s3vectors_client.put_vectors(...)`: upsert every vector of the batch,
keyed by `key`. -/
def put_vectors (st : List S3Vector) (vs : List S3Vector) : List S3Vector :=
  vs.foldl upsertVector st

/-- Model of `opensearch.index(index='video-embeddings', body=document)` without an
explicit document id: appends a fresh (auto-id) document. -/
def osIndexDoc (st : List OSDocument) (d : OSDocument) : List OSDocument :=
  st ++ [d]

/-! ## Segment keys -/

/-- The derived segment key `f"{video_id}_segment_{i}_{startSec}"` shared by
both backend writers. -/
def segKeyStr (video_id : String) (i : Nat) (s : ℚ) : String :=
  video_id ++ "_segment_" ++ toString i ++ "_" ++ toString s

theorem string_eq_of_data_eq {a b : String} (h : a.data = b.data) : a = b :=
  congrArg String.mk h

theorem segKeyStr_inj (v : String) (i j : Nat) (s t : ℚ)
    (h : segKeyStr v i s = segKeyStr v j t) : i = j ∧ toString s = toString t := by
  have hdata := congrArg String.data h
  simp only [segKeyStr, string_data_append, List.append_assoc] at hdata
  have h1 := List.append_cancel_left hdata
  have h2 := List.append_cancel_left h1
  simp only [List.singleton_append] at h2
  rcases underscore_split_unique (repr_ne_underscore i) (repr_ne_underscore j) h2 with
    ⟨hij, hst⟩
  refine ⟨nat_repr_injective (string_eq_of_data_eq hij), string_eq_of_data_eq hst⟩

theorem s3vVectorsFrom_length (v u : String) (i0 : Nat) (l : List EmbeddingData) :
    (s3vVectorsFrom v u i0 l).length = l.length := by
  induction l generalizing i0 with
  | nil => rfl
  | cons e rest ih => simp [s3vVectorsFrom, ih]

theorem osDocumentsFrom_length (v u : String) (r : BedrockResponse) (total i0 : Nat)
    (l : List EmbeddingData) :
    (osDocumentsFrom v u r total i0 l).length = l.length := by
  induction l generalizing i0 with
  | nil => rfl
  | cons e rest ih => simp [osDocumentsFrom, ih]

theorem s3vVectorsFrom_get (v u : String) (i0 : Nat) (l : List EmbeddingData)
    (k : Nat) (hk : k < l.length) :
    (s3vVectorsFrom v u i0 l).get ⟨k, by rw [s3vVectorsFrom_length]; exact hk⟩ =
      { key := segKeyStr v (i0 + k) (l.get ⟨k, hk⟩).startSec
        data := (l.get ⟨k, hk⟩).embedding
        metadata :=
          { videoId := v
            videoS3Uri := u
            segmentId := segKeyStr v (i0 + k) (l.get ⟨k, hk⟩).startSec
            startSec := (l.get ⟨k, hk⟩).startSec
            endSec := (l.get ⟨k, hk⟩).endSec
            duration := (l.get ⟨k, hk⟩).endSec - (l.get ⟨k, hk⟩).startSec
            embeddingOption := (l.get ⟨k, hk⟩).embeddingOption } } := by
  induction l generalizing i0 k with
  | nil => exact absurd hk (by simp)
  | cons e rest ih =>
    cases k with
    | zero => simp [s3vVectorsFrom, segKeyStr]
    | succ k' =>
      have hk' : k' < rest.length := by simpa using hk
      have := ih (i0 + 1) k' hk'
      simp only [s3vVectorsFrom, List.get_cons_succ, this]
      have harith : i0 + 1 + k' = i0 + (k' + 1) := by omega
      simp [harith]

theorem osDocumentsFrom_get (v u : String) (r : BedrockResponse) (total i0 : Nat)
    (l : List EmbeddingData) (k : Nat) (hk : k < l.length) :
    (osDocumentsFrom v u r total i0 l).get
        ⟨k, by rw [osDocumentsFrom_length]; exact hk⟩ =
      { videoId := v
        videoS3Uri := u
        segmentId := segKeyStr v (i0 + k) (l.get ⟨k, hk⟩).startSec
        startSec := (l.get ⟨k, hk⟩).startSec
        endSec := (l.get ⟨k, hk⟩).endSec
        duration := (l.get ⟨k, hk⟩).endSec - (l.get ⟨k, hk⟩).startSec
        embedding := (l.get ⟨k, hk⟩).embedding
        embeddingOption := (l.get ⟨k, hk⟩).embeddingOption
        metadata :=
          { modelId := r.modelId
            invocationArn := r.invocationArn
            timestamp := r.endTime
            segmentIndex := i0 + k
            totalSegments := total } } := by
  induction l generalizing i0 k with
  | nil => exact absurd hk (by simp)
  | cons e rest ih =>
    cases k with
    | zero => simp [osDocumentsFrom, segKeyStr]
    | succ k' =>
      have hk' : k' < rest.length := by simpa using hk
      have := ih (i0 + 1) k' hk'
      simp only [osDocumentsFrom, List.get_cons_succ, this]
      have harith : i0 + 1 + k' = i0 + (k' + 1) := by omega
      simp [harith]

theorem s3vVectorsFrom_mem (v u : String) (i0 : Nat) (l : List EmbeddingData)
    (w : S3Vector) (hw : w ∈ s3vVectorsFrom v u i0 l) :
    ∃ k, k < l.length ∧ ∃ e, e ∈ l ∧ w.key = segKeyStr v (i0 + k) e.startSec := by
  induction l generalizing i0 with
  | nil => simp [s3vVectorsFrom] at hw
  | cons e rest ih =>
    simp only [s3vVectorsFrom, List.mem_cons] at hw
    rcases hw with hw | hw
    · exact ⟨0, by simp, e, by simp, by simp [hw, segKeyStr]⟩
    · rcases ih (i0 + 1) hw with ⟨k, hk, e', he', hkey⟩
      exact ⟨k + 1, by simpa using hk, e', List.mem_cons_of_mem _ he',
        by rw [hkey]; congr 1; omega⟩

/-- Keys of the vector batch derived from one embedding list are pairwise
distinct (distinct indices yield distinct keys). -/
theorem s3vVectorsFrom_keys_pairwise (v u : String) (i0 : Nat)
    (l : List EmbeddingData) :
    (s3vVectorsFrom v u i0 l).Pairwise (fun a b => a.key ≠ b.key) := by
  induction l generalizing i0 with
  | nil => simp [s3vVectorsFrom]
  | cons e rest ih =>
    simp only [s3vVectorsFrom, List.pairwise_cons]
    refine ⟨?_, ih (i0 + 1)⟩
    intro w hw heq
    rcases s3vVectorsFrom_mem v u (i0 + 1) rest w hw with ⟨k, hk, e', he', hkey⟩
    rw [hkey] at heq
    have := (segKeyStr_inj v i0 (i0 + 1 + k) e.startSec e'.startSec (by
      simpa [segKeyStr] using heq)).1
    omega

/-! ## Upsert semantics of the S3 Vectors backend -/

theorem upsertVector_key_mem (st : List S3Vector) (v : S3Vector) (k : String)
    (hw : ∃ x, x ∈ st ∧ x.key = k) :
    ∃ x, x ∈ upsertVector st v ∧ x.key = k := by
  rcases hw with ⟨x, hx, hxk⟩
  unfold upsertVector
  by_cases hany : st.any (fun y => y.key == v.key)
  · rw [if_pos hany]
    by_cases hxv : x.key = v.key
    · refine ⟨v, List.mem_map.2 ⟨x, hx, by simp [hxv]⟩, by rw [← hxk, hxv]⟩
    · exact ⟨x, List.mem_map.2 ⟨x, hx, by simp [hxv]⟩, hxk⟩
  · rw [if_neg hany]
    exact ⟨x, List.mem_append_left _ hx, hxk⟩

theorem upsertVector_self_mem (st : List S3Vector) (v : S3Vector) :
    ∃ x, x ∈ upsertVector st v ∧ x.key = v.key := by
  unfold upsertVector
  by_cases hany : st.any (fun y => y.key == v.key)
  · rw [if_pos hany]
    rcases List.any_eq_true.1 hany with ⟨x, hx, hxk⟩
    have hxk' : x.key = v.key := by simpa using hxk
    exact ⟨v, List.mem_map.2 ⟨x, hx, by simp [hxk']⟩, rfl⟩
  · rw [if_neg hany]
    exact ⟨v, List.mem_append_right _ (by simp), rfl⟩

theorem put_vectors_preserves_key (vs : List S3Vector) (st : List S3Vector)
    (k : String) (h : ∃ x, x ∈ st ∧ x.key = k) :
    ∃ x, x ∈ put_vectors st vs ∧ x.key = k := by
  induction vs generalizing st with
  | nil => exact h
  | cons a rest ih => exact ih (upsertVector st a) (upsertVector_key_mem st a k h)

theorem put_vectors_key_mem (vs : List S3Vector) (st : List S3Vector)
    (v : S3Vector) (hv : v ∈ vs) :
    ∃ x, x ∈ put_vectors st vs ∧ x.key = v.key := by
  induction vs generalizing st with
  | nil => simp at hv
  | cons a rest ih =>
    rcases List.mem_cons.1 hv with hva | hvr
    · subst hva
      exact put_vectors_preserves_key rest (upsertVector st v) v.key
        (upsertVector_self_mem st v)
    · exact ih (upsertVector st a) hvr

/-- Every entry of `upsertVector st v` with key `v.key` is `v` itself,
provided `st` had no other-valued duplicate before (unconditionally true in
the map branch; in the append branch the key was absent from `st`). -/
theorem upsertVector_at_key (st : List S3Vector) (v w : S3Vector)
    (hw : w ∈ upsertVector st v) (hk : w.key = v.key) : w = v := by
  unfold upsertVector at hw
  by_cases hany : st.any (fun y => y.key == v.key)
  · rw [if_pos hany] at hw
    rcases List.mem_map.1 hw with ⟨x, _, hxw⟩
    by_cases hxv : x.key = v.key
    · rw [if_pos hxv] at hxw
      exact hxw.symm
    · rw [if_neg hxv] at hxw
      exact absurd (hxw ▸ hk) hxv
  · rw [if_neg hany] at hw
    rcases List.mem_append.1 hw with hw | hw
    · have hnot : ∀ y ∈ st, y.key ≠ v.key := by
        intro y hy hkey
        exact hany (List.any_eq_true.2 ⟨y, hy, by simp [hkey]⟩)
      exact absurd hk (hnot w hw)
    · simpa using hw

/-- An upsert with a key different from `k` leaves the entries with key `k`
untouched (as a set). -/
theorem upsertVector_other_key (st : List S3Vector) (v w : S3Vector)
    (hne : v.key ≠ w.key) (hw : w ∈ upsertVector st v) : w ∈ st := by
  unfold upsertVector at hw
  by_cases hany : st.any (fun y => y.key == v.key)
  · rw [if_pos hany] at hw
    rcases List.mem_map.1 hw with ⟨x, hx, hxw⟩
    by_cases hxv : x.key = v.key
    · rw [if_pos hxv] at hxw
      exact absurd (hxw ▸ rfl : w.key = v.key) (fun h => hne h.symm)
    · rw [if_neg hxv] at hxw
      exact hxw ▸ hx
  · rw [if_neg hany] at hw
    rcases List.mem_append.1 hw with hw | hw
    · exact hw
    · have : w = v := by simpa using hw
      exact absurd (this ▸ rfl : w.key = v.key) (fun h => hne h.symm)

/-- Writing a batch none of whose keys is `k` does not add entries with
key `k`. -/
theorem put_vectors_other_key (vs : List S3Vector) (st : List S3Vector)
    (k : String) (hk : ∀ u ∈ vs, u.key ≠ k) (w : S3Vector)
    (hw : w ∈ put_vectors st vs) (hwk : w.key = k) : w ∈ st := by
  induction vs generalizing st with
  | nil => exact hw
  | cons a rest ih =>
    have hw' : w ∈ upsertVector st a :=
      ih (upsertVector st a) (fun u hu => hk u (List.mem_cons_of_mem _ hu)) hw
    refine upsertVector_other_key st a w ?_ hw'
    rw [hwk]
    exact hk a (List.mem_cons_self _ _)

/-- After writing a batch with pairwise-distinct keys, every state entry
bearing the key of some batch element equals that element. -/
theorem put_vectors_at_key (vs : List S3Vector)
    (hnd : vs.Pairwise (fun a b => a.key ≠ b.key)) (st : List S3Vector)
    (v : S3Vector) (hv : v ∈ vs) (w : S3Vector)
    (hw : w ∈ put_vectors st vs) (hwk : w.key = v.key) : w = v := by
  induction vs generalizing st with
  | nil => simp at hv
  | cons a rest ih =>
    rcases List.pairwise_cons.1 hnd with ⟨ha, hrest⟩
    rcases List.mem_cons.1 hv with hva | hvr
    · subst hva
      have hw1 : w ∈ upsertVector st v :=
        put_vectors_other_key rest (upsertVector st v) v.key
          (fun u hu => (ha u hu).symm) w hw hwk
      exact upsertVector_at_key st v w hw1 hwk
    · exact ih hrest (upsertVector st a) hvr hw

/-- An upsert whose key is already present with exactly the same value is a
no-op on the state. -/
theorem upsertVector_id (st : List S3Vector) (v : S3Vector)
    (hmem : ∃ x, x ∈ st ∧ x.key = v.key)
    (hall : ∀ w ∈ st, w.key = v.key → w = v) : upsertVector st v = st := by
  rcases hmem with ⟨x, hx, hxk⟩
  unfold upsertVector
  rw [if_pos (List.any_eq_true.2 ⟨x, hx, by simp [hxk]⟩)]
  have hmap : ∀ t : List S3Vector, (∀ w ∈ t, w.key = v.key → w = v) →
      t.map (fun w => if w.key = v.key then v else w) = t := by
    intro t
    induction t with
    | nil => intro _; rfl
    | cons b bs ihb =>
      intro ht
      simp only [List.map_cons]
      rw [ihb (fun w hw => ht w (List.mem_cons_of_mem _ hw))]
      by_cases hb : b.key = v.key
      · rw [if_pos hb, ht b (List.mem_cons_self _ _) hb]
      · rw [if_neg hb]
  exact hmap st hall

/-- Writing a batch all of whose entries are already stored verbatim is a
no-op on the state. -/
theorem put_vectors_id (vs : List S3Vector) (st : List S3Vector)
    (h : ∀ v ∈ vs, (∃ x, x ∈ st ∧ x.key = v.key) ∧
      ∀ w ∈ st, w.key = v.key → w = v) : put_vectors st vs = st := by
  induction vs with
  | nil => rfl
  | cons a rest ih =>
    have hst : upsertVector st a = st :=
      upsertVector_id st a (h a (List.mem_cons_self _ _)).1
        (h a (List.mem_cons_self _ _)).2
    show put_vectors (upsertVector st a) rest = st
    rw [hst]
    exact ih (fun v hv => h v (List.mem_cons_of_mem _ hv))

/-- Idempotence of the S3 Vectors batch write: putting a batch with pairwise
distinct keys twice leaves exactly the state obtained by putting it once. -/
theorem put_vectors_idem (vs : List S3Vector)
    (hnd : vs.Pairwise (fun a b => a.key ≠ b.key)) (st : List S3Vector) :
    put_vectors (put_vectors st vs) vs = put_vectors st vs :=
  put_vectors_id vs (put_vectors st vs) (fun v hv =>
    ⟨put_vectors_key_mem vs st v hv,
     fun w hw hwk => put_vectors_at_key vs hnd st v hv w hw hwk⟩)


/-! ## The two backend writers and the dual-store writer

Infrastructure failures (unavailable OpenSearch client, `ensure_vector_index`
raising, unavailable S3 Vector bucket, `put_vectors` raising) are modelled by
an environment field `fail`: `some msg` makes the writer raise `msg` before
touching the backend state, `none` lets it run; `ms` supplies the wall-clock
storage time the source measures. -/

structure StoreResult where
  stored_count : Nat
  video_id : String
  storage_time_ms : ℚ
deriving DecidableEq

structure OSStoreEnv where
  fail : Option String
  ms : ℚ
deriving DecidableEq

structure S3VStoreEnv where
  fail : Option String
  ms : ℚ
deriving DecidableEq

/-- Embedding of `store_embeddings_to_opensearch(bedrock_response,
embedding_data_list)`: extracts the video metadata, builds one document per
temporal segment and indexes each without an explicit document id (append);
returns the new index state and the simplified response
`{'stored_count': ..., 'video_id': ..., 'storage_time_ms': ...}`. -/
def store_embeddings_to_opensearch (env : OSStoreEnv) (st : List OSDocument)
    (r : BedrockResponse) (l : List EmbeddingData) :
    Except String (List OSDocument × StoreResult) :=
  match env.fail with
  | some m => .error m
  | none =>
    let vm := extract_video_metadata r
    let docs := osDocumentsFrom vm.1 vm.2 r l.length 0 l
    .ok (docs.foldl osIndexDoc st, ⟨docs.length, vm.1, env.ms⟩)

/-- Embedding of `store_embeddings_to_s3_vectors(video_id, video_s3_uri,
embedding_data_list)`: builds one keyed vector per segment and issues a single
`put_vectors` batch upsert. -/
def store_embeddings_to_s3_vectors (env : S3VStoreEnv) (st : List S3Vector)
    (video_id video_s3_uri : String) (l : List EmbeddingData) :
    Except String (List S3Vector × StoreResult) :=
  match env.fail with
  | some m => .error m
  | none =>
    let vectors := s3vVectorsFrom video_id video_s3_uri 0 l
    .ok (put_vectors st vectors, ⟨vectors.length, video_id, env.ms⟩)

structure StoreSide where
  result : Option StoreResult
  error : Option String
deriving DecidableEq

structure DualStoreResult where
  opensearch : StoreSide
  s3vectors : StoreSide
  video_id : String
deriving DecidableEq

/-- Embedding of `store_embeddings_dual(bedrock_response,
embedding_data_list)`: each backend write is wrapped in its own
`try/except`; a raising backend contributes `{'error': str(e)}` and leaves
its state as it was, and the function itself always returns the combined
record (it never raises). -/
def store_embeddings_dual (osEnv : OSStoreEnv) (s3vEnv : S3VStoreEnv)
    (osSt : List OSDocument) (s3vSt : List S3Vector)
    (r : BedrockResponse) (l : List EmbeddingData) :
    DualStoreResult × List OSDocument × List S3Vector :=
  let osOut := store_embeddings_to_opensearch osEnv osSt r l
  let osPair : StoreSide × List OSDocument :=
    match osOut with
    | .ok (st', res) => (⟨some res, none⟩, st')
    | .error m => (⟨none, some m⟩, osSt)
  let vm := extract_video_metadata r
  let s3Out := store_embeddings_to_s3_vectors s3vEnv s3vSt vm.1 vm.2 l
  let s3Pair : StoreSide × List S3Vector :=
    match s3Out with
    | .ok (st', res) => (⟨some res, none⟩, st')
    | .error m => (⟨none, some m⟩, s3vSt)
  (⟨osPair.1, s3Pair.1, vm.1⟩, osPair.2, s3Pair.2)

theorem osIndexDoc_foldl_length (docs : List OSDocument) (st : List OSDocument) :
    (docs.foldl osIndexDoc st).length = st.length + docs.length := by
  induction docs generalizing st with
  | nil => simp
  | cons d rest ih =>
    show (rest.foldl osIndexDoc (osIndexDoc st d)).length = st.length + (rest.length + 1)
    rw [ih]
    simp [osIndexDoc]
    omega

/-! ## Claims C9, C1, C2 -/

/-- Claim **C9** (confirmed).  For every embedding batch and every index `k` in it,
both backends receive the identical derived segment key
`videoId ++ "_segment_" ++ k ++ "_" ++ startSec`, both store a `duration`
metadata field equal to `endSec - startSec` of that segment, and segments at
distinct indices within one batch receive distinct keys. -/
theorem C9_segment_key_agreement (r : BedrockResponse) (l : List EmbeddingData)
    (k j : Nat) (hk : k < l.length) (hj : j < l.length) (hkj : k ≠ j) :
    ((s3vVectorsFrom (extract_video_metadata r).1 (extract_video_metadata r).2
        0 l).get ⟨k, by rw [s3vVectorsFrom_length]; exact hk⟩).key
      = segKeyStr (extract_video_metadata r).1 k (l.get ⟨k, hk⟩).startSec
  ∧ ((osDocumentsFrom (extract_video_metadata r).1 (extract_video_metadata r).2
        r l.length 0 l).get ⟨k, by rw [osDocumentsFrom_length]; exact hk⟩).segmentId
      = segKeyStr (extract_video_metadata r).1 k (l.get ⟨k, hk⟩).startSec
  ∧ ((s3vVectorsFrom (extract_video_metadata r).1 (extract_video_metadata r).2
        0 l).get ⟨k, by rw [s3vVectorsFrom_length]; exact hk⟩).metadata.duration
      = (l.get ⟨k, hk⟩).endSec - (l.get ⟨k, hk⟩).startSec
  ∧ ((osDocumentsFrom (extract_video_metadata r).1 (extract_video_metadata r).2
        r l.length 0 l).get ⟨k, by rw [osDocumentsFrom_length]; exact hk⟩).duration
      = (l.get ⟨k, hk⟩).endSec - (l.get ⟨k, hk⟩).startSec
  ∧ ((s3vVectorsFrom (extract_video_metadata r).1 (extract_video_metadata r).2
        0 l).get ⟨k, by rw [s3vVectorsFrom_length]; exact hk⟩).key
      ≠ ((s3vVectorsFrom (extract_video_metadata r).1 (extract_video_metadata r).2
        0 l).get ⟨j, by rw [s3vVectorsFrom_length]; exact hj⟩).key := by
  have hs := s3vVectorsFrom_get (extract_video_metadata r).1
    (extract_video_metadata r).2 0 l k hk
  have hsj := s3vVectorsFrom_get (extract_video_metadata r).1
    (extract_video_metadata r).2 0 l j hj
  have ho := osDocumentsFrom_get (extract_video_metadata r).1
    (extract_video_metadata r).2 r l.length 0 l k hk
  refine ⟨?_, ?_, ?_, ?_, ?_⟩
  · rw [hs]
    simp
  · rw [ho]
    simp
  · rw [hs]
  · rw [ho]
  · rw [hs, hsj]
    simp only [Nat.zero_add]
    intro heq
    exact hkj (segKeyStr_inj _ _ _ _ _ heq).1

def rW : BedrockResponse :=
  ⟨"s3://bucket/videos/cat.mp4", "", "model", "arn", "time"⟩

def lW : List EmbeddingData :=
  [⟨0, 10, [1], "visual-text"⟩, ⟨10, 20, [2], "audio"⟩]

theorem C9_segment_key_agreement_witness :
    ((s3vVectorsFrom (extract_video_metadata rW).1 (extract_video_metadata rW).2
        0 lW).get ⟨0, by rw [s3vVectorsFrom_length]; decide⟩).key
      ≠ ((s3vVectorsFrom (extract_video_metadata rW).1 (extract_video_metadata rW).2
        0 lW).get ⟨1, by rw [s3vVectorsFrom_length]; decide⟩).key :=
  (C9_segment_key_agreement rW lW 0 1 (by decide) (by decide) (by decide)).2.2.2.2

/-- State of the OpenSearch index after a (successful or failed) run of the
OpenSearch writer; a raising run leaves the state unchanged. -/
def osStateAfter (env : OSStoreEnv) (st : List OSDocument) (r : BedrockResponse)
    (l : List EmbeddingData) : List OSDocument :=
  match store_embeddings_to_opensearch env st r l with
  | .ok p => p.1
  | .error _ => st

/-- State of the S3 Vectors index after a (successful or failed) run of the
S3 Vectors writer; a raising run leaves the state unchanged. -/
def s3vStateAfter (env : S3VStoreEnv) (st : List S3Vector)
    (video_id video_s3_uri : String) (l : List EmbeddingData) : List S3Vector :=
  match store_embeddings_to_s3_vectors env st video_id video_s3_uri l with
  | .ok p => p.1
  | .error _ => st

def c1seg : EmbeddingData := ⟨0, 10, [1], "visual-text"⟩

/-- Claim **C1** (counterexample).  Re-running the OpenSearch half of
materialization for the same one-segment batch duplicates the stored
documents: the second run leaves two documents where one run left one, so the
stored set after writing twice differs from the stored set after writing
once.  (`opensearch.index` is called without an explicit document id, so it
appends instead of upserting by `segmentKey`.) -/
theorem C1_counterexample :
    (osStateAfter ⟨none, 0⟩ (osStateAfter ⟨none, 0⟩ [] rW [c1seg]) rW [c1seg]).length = 2
  ∧ (osStateAfter ⟨none, 0⟩ [] rW [c1seg]).length = 1
  ∧ osStateAfter ⟨none, 0⟩ (osStateAfter ⟨none, 0⟩ [] rW [c1seg]) rW [c1seg]
      ≠ osStateAfter ⟨none, 0⟩ [] rW [c1seg] := by
  have h2 : (osStateAfter ⟨none, 0⟩ (osStateAfter ⟨none, 0⟩ [] rW [c1seg]) rW
      [c1seg]).length = 2 := by
    show ((osDocumentsFrom _ _ rW 1 0 [c1seg]).foldl osIndexDoc
      ((osDocumentsFrom _ _ rW 1 0 [c1seg]).foldl osIndexDoc [])).length = 2
    rw [osIndexDoc_foldl_length, osIndexDoc_foldl_length]
    simp [osDocumentsFrom_length]
  have h1 : (osStateAfter ⟨none, 0⟩ [] rW [c1seg]).length = 1 := by
    show ((osDocumentsFrom _ _ rW 1 0 [c1seg]).foldl osIndexDoc []).length = 1
    rw [osIndexDoc_foldl_length]
    simp [osDocumentsFrom_length]
  refine ⟨h2, h1, fun h => ?_⟩
  rw [congrArg List.length h, h1] at h2
  exact absurd h2 (by decide)

/-- Claim **C1** (amended).  Writing the same segment batch twice is idempotent for
the S3 Vectors backend (its write is an upsert keyed by `segmentKey`, and the
derived keys of one batch are pairwise distinct), but the OpenSearch backend
indexes documents without an explicit id, so a second run of materialization
appends `len(batch)` further documents instead of leaving the stored set
unchanged. -/
theorem C1_amended_idempotence (video_id video_s3_uri : String)
    (l : List EmbeddingData) (st : List S3Vector) (ost : List OSDocument)
    (r : BedrockResponse) (e1 e2 : ℚ) :
    s3vStateAfter ⟨none, e1⟩ (s3vStateAfter ⟨none, e2⟩ st video_id video_s3_uri l)
        video_id video_s3_uri l
      = s3vStateAfter ⟨none, e2⟩ st video_id video_s3_uri l
  ∧ (osStateAfter ⟨none, e1⟩ (osStateAfter ⟨none, e2⟩ ost r l) r l).length
      = ost.length + 2 * l.length := by
  constructor
  · show put_vectors (put_vectors st (s3vVectorsFrom video_id video_s3_uri 0 l))
      (s3vVectorsFrom video_id video_s3_uri 0 l)
      = put_vectors st (s3vVectorsFrom video_id video_s3_uri 0 l)
    exact put_vectors_idem _ (s3vVectorsFrom_keys_pairwise _ _ _ _) st
  · show ((osDocumentsFrom _ _ r l.length 0 l).foldl osIndexDoc
      ((osDocumentsFrom _ _ r l.length 0 l).foldl osIndexDoc ost)).length
      = ost.length + 2 * l.length
    rw [osIndexDoc_foldl_length, osIndexDoc_foldl_length,
      osDocumentsFrom_length]
    omega

/-- Claim **C2** (confirmed).  In `store_embeddings_dual` each backend write is
wrapped independently: when exactly one backend raises, the combined outcome
carries the raising backend's error message while the other backend reports
its stored count (the full batch length, positive for a non-empty batch); the
failing backend's state is untouched and the successful backend's write is
not rolled back.  The function is total: no exception escapes. -/
theorem C2_dual_store_isolation :
    (∀ (m : String) (ms : ℚ) (osSt : List OSDocument) (s3vSt : List S3Vector)
        (r : BedrockResponse) (l : List EmbeddingData), l ≠ [] →
      (store_embeddings_dual ⟨some m, 0⟩ ⟨none, ms⟩ osSt s3vSt r l).1.opensearch.error
          = some m
      ∧ (store_embeddings_dual ⟨some m, 0⟩ ⟨none, ms⟩ osSt s3vSt r l).1.s3vectors.result
          = some ⟨l.length, (extract_video_metadata r).1, ms⟩
      ∧ 0 < l.length
      ∧ (store_embeddings_dual ⟨some m, 0⟩ ⟨none, ms⟩ osSt s3vSt r l).2.1 = osSt
      ∧ (store_embeddings_dual ⟨some m, 0⟩ ⟨none, ms⟩ osSt s3vSt r l).2.2
          = put_vectors s3vSt (s3vVectorsFrom (extract_video_metadata r).1
              (extract_video_metadata r).2 0 l))
  ∧ (∀ (m : String) (ms : ℚ) (osSt : List OSDocument) (s3vSt : List S3Vector)
        (r : BedrockResponse) (l : List EmbeddingData), l ≠ [] →
      (store_embeddings_dual ⟨none, ms⟩ ⟨some m, 0⟩ osSt s3vSt r l).1.s3vectors.error
          = some m
      ∧ (store_embeddings_dual ⟨none, ms⟩ ⟨some m, 0⟩ osSt s3vSt r l).1.opensearch.result
          = some ⟨l.length, (extract_video_metadata r).1, ms⟩
      ∧ 0 < l.length
      ∧ (store_embeddings_dual ⟨none, ms⟩ ⟨some m, 0⟩ osSt s3vSt r l).2.2 = s3vSt) := by
  constructor
  · intro m ms osSt s3vSt r l hl
    refine ⟨rfl, ?_, List.length_pos.2 hl, rfl, rfl⟩
    show some (⟨(s3vVectorsFrom (extract_video_metadata r).1
      (extract_video_metadata r).2 0 l).length, (extract_video_metadata r).1, ms⟩
        : StoreResult) = _
    rw [s3vVectorsFrom_length]
  · intro m ms osSt s3vSt r l hl
    refine ⟨rfl, ?_, List.length_pos.2 hl, rfl⟩
    show some (⟨(osDocumentsFrom (extract_video_metadata r).1
      (extract_video_metadata r).2 r l.length 0 l).length,
        (extract_video_metadata r).1, ms⟩ : StoreResult) = _
    rw [osDocumentsFrom_length]

theorem C2_dual_store_isolation_witness :
    (store_embeddings_dual ⟨some "boom", 0⟩ ⟨none, 3⟩ [] [] rW
        [c1seg]).1.opensearch.error = some "boom"
  ∧ (store_embeddings_dual ⟨some "boom", 0⟩ ⟨none, 3⟩ [] [] rW
        [c1seg]).1.s3vectors.result = some ⟨1, "cat", 3⟩
  ∧ (store_embeddings_dual ⟨none, 3⟩ ⟨some "boom", 0⟩ [] [] rW
        [c1seg]).1.s3vectors.error = some "boom"
  ∧ (store_embeddings_dual ⟨none, 3⟩ ⟨some "boom", 0⟩ [] [] rW
        [c1seg]).1.opensearch.result = some ⟨1, "cat", 3⟩ := by
  have h1 := (C2_dual_store_isolation.1 "boom" 3 [] [] rW [c1seg] (by decide))
  have h2 := (C2_dual_store_isolation.2 "boom" 3 [] [] rW [c1seg] (by decide))
  have hvid : (extract_video_metadata rW).1 = "cat" := by decide
  refine ⟨h1.1, ?_, h2.1, ?_⟩
  · have := h1.2.1
    rwa [hvid, (by decide : ([c1seg] : List EmbeddingData).length = 1)] at this
  · have := h2.2.1
    rwa [hvid, (by decide : ([c1seg] : List EmbeddingData).length = 1)] at this

/-! ## Dual-store search

`search_opensearch` / `search_s3_vectors` query the two backends.  The
engine responses are environment data:
* OpenSearch: `clientUnavailable` models `get_opensearch_client()` returning
  `None` (the code raises "OpenSearch client not available");
  `indexAbsent` models an `index_not_found_exception` raised by
  `ensure_vector_index` or by the query itself — both handlers return the
  same empty-result-with-message outcome; `raiseOther m` models any other
  exception (message not containing `index_not_found_exception`), which is
  re-raised; `okHits` supplies the hit list, the reported total
  (`hits.total.value`) and the measured wall-clock milliseconds.
* S3 Vectors: `bucketUnavailable` models `get_or_create_s3_vector_bucket`
  raising (no handler in `search_s3_vectors`: the exception propagates);
  `okVecs` supplies the vectors returned by `query_vectors` — an index that
  was absent is lazily created by `get_or_create_s3_vector_bucket`, after
  which the query returns `okVecs []`. -/

structure OSHit where
  videoId : String
  videoS3Uri : String
  segmentId : String
  startSec : ℚ
  endSec : ℚ
  duration : ℚ
  embeddingOption : String
  /-- the raw `hit['_score']`: an OpenSearch similarity score, higher is better. -/
  score : ℚ
  /-- the stored document's `metadata` sub-dict
  (`source.get('metadata', {})`): shape `OSDocMeta`. -/
  metadata : OSDocMeta
deriving DecidableEq

structure S3QVec where
  videoId : String
  videoS3Uri : String
  segmentId : String
  startSec : ℚ
  endSec : ℚ
  duration : ℚ
  embeddingOption : String
  /-- the raw `vector['distance']`: a cosine distance, lower is better. -/
  distance : ℚ
deriving DecidableEq

/-- The `metadata` value attached to one reported row: in Python both are
plain dicts, but the two backends always attach dicts of different shapes —
the OpenSearch loop re-emits the stored document's metadata
(modelId/invocationArn/timestamp/segmentIndex/totalSegments), while the S3
Vectors loop re-emits the full stored vector metadata
(videoId/videoS3Uri/segmentId/startSec/endSec/duration/embeddingOption). -/
inductive RowMeta where
  | osDoc (m : OSDocMeta)
  | s3vec (m : S3VectorMeta)
deriving DecidableEq

/-- One entry of a backend's `results` list.  Both loops emit a dict with the
same keys (the S3 Vectors loop is commented "Transform results to match
OpenSearch format"), including a backend-specific `metadata` sub-dict. -/
structure ResultRow where
  videoId : String
  videoS3Uri : String
  segmentId : String
  startSec : ℚ
  endSec : ℚ
  duration : ℚ
  embeddingOption : String
  score : ℚ
  metadata : RowMeta
deriving DecidableEq

/-- Loop body of `search_opensearch` (main.py lines 225-237): the row's
`score` is the raw `hit['_score']` and `metadata` is
`source.get('metadata', {})`. -/
def osResultRow (h : OSHit) : ResultRow :=
  ⟨h.videoId, h.videoS3Uri, h.segmentId, h.startSec, h.endSec, h.duration,
   h.embeddingOption, h.score, .osDoc h.metadata⟩

/-- Loop body of `search_s3_vectors` (main.py lines 282-294): the row's
`score` is the raw `vector.get('distance', 0)` — the source itself notes
"distance, not similarity score" — and `metadata` is the vector's stored
metadata dict. -/
def s3vResultRow (v : S3QVec) : ResultRow :=
  ⟨v.videoId, v.videoS3Uri, v.segmentId, v.startSec, v.endSec, v.duration,
   v.embeddingOption, v.distance,
   .s3vec ⟨v.videoId, v.videoS3Uri, v.segmentId, v.startSec, v.endSec,
     v.duration, v.embeddingOption⟩⟩

structure SearchOutcome where
  results : List ResultRow
  total : Nat
  search_time_ms : ℚ
  message : Option String
deriving DecidableEq

inductive OSSearchEnv where
  | clientUnavailable
  | indexAbsent
  | raiseOther (msg : String)
  | okHits (hits : List OSHit) (total : Nat) (ms : ℚ)
deriving DecidableEq

inductive S3VSearchEnv where
  | bucketUnavailable (msg : String)
  | okVecs (vectors : List S3QVec) (ms : ℚ)
deriving DecidableEq

/-- Embedding of `search_opensearch(query_embedding, top_k)`. -/
def search_opensearch (env : OSSearchEnv) (query_embedding : List ℚ)
    (top_k : Nat) : Except String SearchOutcome :=
  match env with
  | .clientUnavailable => .error "OpenSearch client not available"
  | .indexAbsent =>
    .ok ⟨[], 0, 0,
      some "No videos indexed yet - upload and process videos with embeddings first"⟩
  | .raiseOther m => .error m
  | .okHits hits total ms => .ok ⟨hits.map osResultRow, total, ms, none⟩

/-- Embedding of `search_s3_vectors(query_embedding, top_k)`; its `total` is
`len(results)`. -/
def search_s3_vectors (env : S3VSearchEnv) (query_embedding : List ℚ)
    (top_k : Nat) : Except String SearchOutcome :=
  match env with
  | .bucketUnavailable m => .error m
  | .okVecs vs ms => .ok ⟨vs.map s3vResultRow, (vs.map s3vResultRow).length, ms, none⟩

/-! ## Claims C6, C7 -/

/-- Claim **C6** (counterexample).  Dual-search against an S3 Vectors backend whose
index was never written (the bucket/index is lazily created, after which the
query returns no vectors) yields an empty result set with zero total but NO
descriptive message — `search_s3_vectors` never sets a `message` field, so
the claim's "descriptive message ... for each of the two backends
independently" fails on the S3 Vectors side. -/
theorem C6_counterexample :
    search_s3_vectors (.okVecs [] 0) [] 10 = .ok ⟨[], 0, 0, none⟩ := rfl

/-- Claim **C6** (amended).  A search against an absent index degrades to an empty
result set with zero total rather than an error on both backends, but only
the OpenSearch side carries the descriptive message ("No videos indexed
yet..."); the S3 Vectors side lazily creates the missing index and returns an
empty result set with zero total and no message field. -/
theorem C6_amended_empty_index_degradation :
    (∀ (q : List ℚ) (k : Nat),
      search_opensearch .indexAbsent q k
        = .ok ⟨[], 0, 0,
            some "No videos indexed yet - upload and process videos with embeddings first"⟩)
  ∧ (∀ (q : List ℚ) (k : Nat) (ms : ℚ),
      search_s3_vectors (.okVecs [] ms) q k = .ok ⟨[], 0, ms, none⟩) :=
  ⟨fun _ _ => rfl, fun _ _ _ => rfl⟩

/-- Claim **C7** (confirmed).  The orchestrator preserves each backend's raw
ranking value together with its kind: the OpenSearch row carries the raw
similarity `hit['_score']` and the S3 Vectors row carries the raw distance
`vector['distance']` — neither is converted to the other's scale — and each
backend's rows are emitted only into its own labelled result set of the
comparison, with a backend-specific `metadata` sub-dict of a shape the other
backend never produces, so a row from one backend is never equal to a row
from the other and the caller can tell which scale each value is on. -/
theorem C7_raw_rank_preserved_with_kind :
    (∀ h : OSHit, (osResultRow h).score = h.score)
  ∧ (∀ v : S3QVec, (s3vResultRow v).score = v.distance)
  ∧ (∀ (h : OSHit) (v : S3QVec), osResultRow h ≠ s3vResultRow v)
  ∧ (∀ (hits : List OSHit) (total : Nat) (ms : ℚ) (q : List ℚ) (k : Nat),
      search_opensearch (.okHits hits total ms) q k
        = .ok ⟨hits.map osResultRow, total, ms, none⟩)
  ∧ (∀ (vs : List S3QVec) (ms : ℚ) (q : List ℚ) (k : Nat),
      search_s3_vectors (.okVecs vs ms) q k
        = .ok ⟨vs.map s3vResultRow, (vs.map s3vResultRow).length, ms, none⟩) := by
  refine ⟨fun _ => rfl, fun _ => rfl, ?_, fun _ _ _ _ _ => rfl, fun _ _ _ _ => rfl⟩
  intro h v heq
  have hmeta := congrArg ResultRow.metadata heq
  simp [osResultRow, s3vResultRow] at hmeta

/-! ## Object availability waiter (`wait_for_s3_object`)

`s3_client.head_object` outcomes are an oracle indexed by the poll number:
`found` (the object exists), `clientError code` (a `ClientError` whose
`Error.Code` is `code`), `otherError` (any other exception).  The source
retries only on `code == 'NoSuchKey'`, sleeping `wait_time` seconds and then
setting `wait_time = min(wait_time * 1.5, 5)`.  The loop
`while total_waited < max_wait_seconds` is realised with a fuel argument;
since every iteration adds `wait_time ≥ 1` to `total_waited`, the loop body
runs at most `⌈max_wait⌉` times, so the supplied fuel `⌈max_wait⌉ + 1` is
never exhausted; the fuel-exhausted branch returns the same timeout result as
the loop exit. -/

inductive HeadResult where
  | found
  | clientError (code : String)
  | otherError
deriving DecidableEq

structure WaitResult where
  /-- the boolean the Python function returns -/
  result : Bool
  /-- how many `head_object` calls were made -/
  polls : Nat
  /-- accumulated sleep time in seconds (`total_waited`) -/
  totalWaited : ℚ
deriving DecidableEq

/-- URI validation of `wait_for_s3_object`: requires the `s3://` scheme and a
slash separating bucket and key (`s3_path.split('/', 1)` of length 2). -/
def validS3Parse (s3_uri : String) : Option (List Char × List Char) :=
  if "s3://".data.isPrefixOf s3_uri.data then
    match splitSlashOnce (s3_uri.data.drop 5) with
    | (bucket, some rest) => some (bucket, rest)
    | (_, none) => none
  else none

/-- The polling loop of `wait_for_s3_object`. -/
def wait_go (oracle : Nat → HeadResult) (max_wait : ℚ) :
    Nat → Nat → ℚ → ℚ → WaitResult
  | 0, polls, _, total => ⟨false, polls, total⟩
  | fuel + 1, polls, wait_time, total =>
    if total < max_wait then
      match oracle polls with
      | .found => ⟨true, polls + 1, total⟩
      | .clientError code =>
        if code = "NoSuchKey" then
          wait_go oracle max_wait fuel (polls + 1) (min (wait_time * 3 / 2) 5)
            (total + wait_time)
        else ⟨false, polls + 1, total⟩
      | .otherError => ⟨false, polls + 1, total⟩
    else ⟨false, polls, total⟩

/-- Embedding of `wait_for_s3_object(s3_uri, max_wait_seconds)`. -/
def wait_for_s3_object (oracle : Nat → HeadResult) (s3_uri : String)
    (max_wait_seconds : ℚ) : WaitResult :=
  match validS3Parse s3_uri with
  | none => ⟨false, 0, 0⟩
  | some _ => wait_go oracle max_wait_seconds (⌈max_wait_seconds⌉.toNat + 1) 0 1 0

theorem wait_go_never_found_false (oracle : Nat → HeadResult) (max_wait : ℚ)
    (hnf : ∀ k, oracle k = .clientError "NoSuchKey") :
    ∀ (fuel polls : Nat) (w t : ℚ),
      (wait_go oracle max_wait fuel polls w t).result = false := by
  intro fuel
  induction fuel with
  | zero => intro polls w t; rfl
  | succ fuel ih =>
    intro polls w t
    show (if t < max_wait then _ else _ : WaitResult).result = false
    by_cases hlt : t < max_wait
    · rw [if_pos hlt]
      rw [hnf polls]
      simp only [if_pos rfl]
      exact ih (polls + 1) _ _
    · rw [if_neg hlt]

/-- Accumulated sleep of the waiter after `k` consecutive not-found retries
when the current backoff interval is `w`: each retry sleeps `w` seconds and
then sets `w := min(w * 1.5, 5)`. -/
def sumW (w : ℚ) : Nat → ℚ
  | 0 => 0
  | k + 1 => w + sumW (min (w * 3 / 2) 5) k

theorem backoff_ge_one {w : ℚ} (hw : 1 ≤ w) : 1 ≤ min (w * 3 / 2) 5 := by
  refine le_min ?_ (by norm_num)
  linarith

theorem sumW_ge (w : ℚ) (k : Nat) (hw : 1 ≤ w) : (k : ℚ) ≤ sumW w k := by
  induction k generalizing w with
  | zero => simp [sumW]
  | succ k ih =>
    have h1 := backoff_ge_one hw
    have h2 := ih (min (w * 3 / 2) 5) h1
    simp only [sumW]
    push_cast
    linarith

theorem sumW_nonneg (w : ℚ) (k : Nat) (hw : 1 ≤ w) : 0 ≤ sumW w k :=
  le_trans (Nat.cast_nonneg k) (sumW_ge w k hw)

/-- Success of the polling loop after `k` not-found retries: from any loop
state with interval `w ≥ 1`, if the oracle reports `NoSuchKey` for the next
`k` polls and `found` at poll `k`, and the accumulated sleep stays inside the
budget, the loop returns `true` at exactly that poll, having slept the
backoff sum. -/
theorem wait_go_found_after (oracle : Nat → HeadResult) (max_wait : ℚ) :
    ∀ (k fuel polls : Nat) (w t : ℚ), 1 ≤ w →
      (∀ j, j < k → oracle (polls + j) = .clientError "NoSuchKey") →
      oracle (polls + k) = .found →
      t + sumW w k < max_wait →
      k + 1 ≤ fuel →
      wait_go oracle max_wait fuel polls w t
        = ⟨true, polls + k + 1, t + sumW w k⟩ := by
  intro k
  induction k with
  | zero =>
    intro fuel polls w t hw _ hfound hlt hfuel
    cases fuel with
    | zero => omega
    | succ f =>
      simp only [Nat.add_zero] at hfound
      simp only [sumW, add_zero] at hlt
      unfold wait_go
      rw [if_pos hlt, hfound]
      simp [sumW]
  | succ k ih =>
    intro fuel polls w t hw hnsk hfound hlt hfuel
    cases fuel with
    | zero => omega
    | succ f =>
      have hw' : 1 ≤ min (w * 3 / 2) 5 := backoff_ge_one hw
      have hnonneg : 0 ≤ sumW w (k + 1) := sumW_nonneg w (k + 1) hw
      have ht : t < max_wait := by linarith
      have h0 := hnsk 0 (by omega)
      simp only [Nat.add_zero] at h0
      have hrec := ih f (polls + 1) (min (w * 3 / 2) 5) (t + w) hw'
        (fun j hj => by
          have hx := hnsk (j + 1) (by omega)
          rwa [show polls + (j + 1) = polls + 1 + j from by omega] at hx)
        (by rwa [show polls + 1 + k = polls + (k + 1) from by omega])
        (by simp only [sumW] at hlt; linarith)
        (by omega)
      unfold wait_go
      rw [if_pos ht, h0]
      show (if ("NoSuchKey" : String) = "NoSuchKey"
          then wait_go oracle max_wait f (polls + 1) (min (w * 3 / 2) 5) (t + w)
          else ⟨false, polls + 1, t⟩) = _
      rw [if_pos rfl, hrec, WaitResult.mk.injEq]
      refine ⟨rfl, by omega, ?_⟩
      simp only [sumW]
      ring

/-! ## Claim C4 -/

/-- Claim **C4** (counterexample).  On a well-formed reference and a permission
error (`AccessDenied`, not a not-found error) at the very first existence
check, `wait_for_s3_object` returns the plain boolean `False` after a single
poll and zero sleeping — exactly the same outcome shape as a timeout or a
malformed reference — instead of propagating the error as the claim
states. -/
theorem C4_counterexample :
    wait_for_s3_object (fun _ => .clientError "AccessDenied") "s3://bucket/key" 30
      = ⟨false, 1, 0⟩ := by
  decide

/-- Claim **C4** (amended).  The waiter returns `true` as soon as existence is
confirmed — after any number `k` of not-found retries within the wait budget,
it returns `true` at exactly the confirming poll, having slept exactly the
accumulated backoff `sumW 1 k` — returns `false` (not an error) on timeout or
on a malformed reference, and when the existence check fails with any error
other than not-found it stops immediately — no further poll and no further
sleep — but returns `false` rather than propagating the error (the
non-`NoSuchKey` `ClientError` branch returns `False` just like the generic
handler). -/
theorem C4_amended_waiter :
    (∀ (oracle : Nat → HeadResult) (uri : String) (max_wait : ℚ),
      validS3Parse uri = none →
      wait_for_s3_object oracle uri max_wait = ⟨false, 0, 0⟩)
  ∧ (∀ (oracle : Nat → HeadResult) (uri : String) (max_wait : ℚ) (k : Nat)
        (p : List Char × List Char), validS3Parse uri = some p →
      (∀ j, j < k → oracle j = .clientError "NoSuchKey") →
      oracle k = .found → sumW 1 k < max_wait →
      wait_for_s3_object oracle uri max_wait = ⟨true, k + 1, sumW 1 k⟩)
  ∧ (∀ (oracle : Nat → HeadResult) (uri : String) (max_wait : ℚ),
      (∀ k, oracle k = .clientError "NoSuchKey") →
      (wait_for_s3_object oracle uri max_wait).result = false)
  ∧ (∀ (oracle : Nat → HeadResult) (max_wait : ℚ) (fuel polls : Nat) (w t : ℚ)
        (code : String), t < max_wait → oracle polls = .clientError code →
      code ≠ "NoSuchKey" →
      wait_go oracle max_wait (fuel + 1) polls w t = ⟨false, polls + 1, t⟩) := by
  refine ⟨?_, ?_, ?_, ?_⟩
  · intro oracle uri max_wait hbad
    unfold wait_for_s3_object
    rw [hbad]
  · intro oracle uri max_wait k p hp hnsk hfound hlt
    unfold wait_for_s3_object
    rw [hp]
    have hk_le : k + 1 ≤ ⌈max_wait⌉.toNat + 1 := by
      have h1 : (k : ℚ) ≤ sumW 1 k := sumW_ge 1 k (le_refl 1)
      have h2 : max_wait ≤ (⌈max_wait⌉ : ℚ) := Int.le_ceil max_wait
      have h3 : ((k : ℤ) : ℚ) < ((⌈max_wait⌉ : ℤ) : ℚ) := by push_cast; linarith
      have h4 : (k : ℤ) < ⌈max_wait⌉ := by exact_mod_cast h3
      omega
    have hres := wait_go_found_after oracle max_wait k (⌈max_wait⌉.toNat + 1)
      0 1 0 (le_refl 1)
      (fun j hj => by simpa using hnsk j hj)
      (by simpa using hfound)
      (by simpa using hlt)
      hk_le
    simpa using hres
  · intro oracle uri max_wait hnf
    unfold wait_for_s3_object
    cases hpm : validS3Parse uri with
    | none => rfl
    | some p => exact wait_go_never_found_false oracle max_wait hnf _ 0 1 0
  · intro oracle max_wait fuel polls w t code hlt hor hcode
    unfold wait_go
    rw [if_pos hlt, hor]
    simp [hcode]

theorem C4_amended_waiter_witness :
    wait_for_s3_object (fun _ => .found) "not-a-uri" 30 = ⟨false, 0, 0⟩
  ∧ wait_for_s3_object
      (fun t => if t < 2 then HeadResult.clientError "NoSuchKey" else .found)
      "s3://bucket/key" 30 = ⟨true, 3, sumW 1 2⟩
  ∧ (wait_for_s3_object (fun _ => .clientError "NoSuchKey") "s3://bucket/key"
      30).result = false
  ∧ wait_go (fun _ => .clientError "Forbidden") 30 3 0 1 0 = ⟨false, 1, 0⟩ :=
  ⟨C4_amended_waiter.1 _ "not-a-uri" 30 (by decide),
   C4_amended_waiter.2.1 _ "s3://bucket/key" 30 2 ("bucket".data, "key".data)
     (by decide) (fun j hj => by simp [hj]) (by decide) (by norm_num [sumW]),
   C4_amended_waiter.2.2.1 _ "s3://bucket/key" 30 (fun _ => rfl),
   C4_amended_waiter.2.2.2 _ 30 2 0 1 0 "Forbidden" (by decide) rfl (by decide)⟩

/-! ## Analysis submission (`handle_analyze`)

The submission path is modelled as a function returning the HTTP status code
together with a trace of the external effects it successfully performed, in
order: ledger writes (`s3_client.put_object` of `job_info.json`) and the
asynchronous Lambda dispatch (`lambda_client.invoke` with
`InvocationType='Event'`).  The environment says which effects succeed:
`putJobInfoOk` is the initial ledger write, `invokeOk` the dispatch,
`putFailedOk` the failure-path ledger rewrite (its own raise falls through to
the outer handler, which still returns a 500).  The `ledger` field is the
descriptor stored by the last successful ledger write: status plus whether an
`error` detail is attached. -/

inductive AnalyzeEvent where
  | putLedger (status : String) (hasErrorDetail : Bool)
  | dispatchContinuation
deriving DecidableEq

structure AnalyzeEnv where
  headOracle : Nat → HeadResult
  putJobInfoOk : Bool
  invokeOk : Bool
  putFailedOk : Bool

structure AnalyzeBody where
  s3Uri : Option String
  prompt : String
  videoId : String

structure AnalyzeResult where
  statusCode : Nat
  events : List AnalyzeEvent
  ledger : Option (String × Bool)
deriving DecidableEq

/-- Embedding of `handle_analyze(event, cors_headers, context)`:
`body = none` models a JSON decode error (HTTP 400); a missing `s3Uri` is a
400; an unavailable S3 object (via `wait_for_s3_object(s3_uri, 30)`) is a
404; a failing ledger write is a 500 with nothing dispatched; a failing
dispatch rewrites the ledger entry to `Failed` with an `error` detail and
returns 500; otherwise the job id is returned with HTTP 202. -/
def handle_analyze (env : AnalyzeEnv) (body : Option AnalyzeBody) : AnalyzeResult :=
  match body with
  | none => ⟨400, [], none⟩
  | some b =>
    match b.s3Uri with
    | none => ⟨400, [], none⟩
    | some uri =>
      if (wait_for_s3_object env.headOracle uri 30).result = false then
        ⟨404, [], none⟩
      else if env.putJobInfoOk = false then
        -- the ledger write raised: 'Failed to initialize analysis job'
        ⟨500, [], none⟩
      else if env.invokeOk then
        ⟨202, [.putLedger "InProgress" false, .dispatchContinuation],
         some ("InProgress", false)⟩
      else if env.putFailedOk then
        -- dispatch raised: rewrite ledger to Failed with error detail, then 500
        ⟨500, [.putLedger "InProgress" false, .putLedger "Failed" true],
         some ("Failed", true)⟩
      else
        -- dispatch raised and the rewrite itself raised: the outer handler
        -- still returns a 500; the ledger keeps the InProgress record
        ⟨500, [.putLedger "InProgress" false], some ("InProgress", false)⟩

/-! ## Claims C3 and C8 -/

/-- Claim **C3** (confirmed).  Every accepted analysis submission (HTTP 202)
persisted the job descriptor with status `InProgress`
(∈ {Submitted, InProgress}) strictly before dispatching the detached
continuation — the event trace is exactly the ledger write followed by the
dispatch; and if the ledger write itself fails, the submission returns an
error (500) to the caller and the continuation is never dispatched. -/
theorem C3_persist_before_dispatch (env : AnalyzeEnv) (body : Option AnalyzeBody) :
    ((handle_analyze env body).statusCode = 202 →
      (handle_analyze env body).events
        = [.putLedger "InProgress" false, .dispatchContinuation]
      ∧ "InProgress" ∈ (["Submitted", "InProgress"] : List String))
  ∧ (∀ (b : AnalyzeBody) (uri : String), body = some b → b.s3Uri = some uri →
      (wait_for_s3_object env.headOracle uri 30).result = true →
      env.putJobInfoOk = false →
      (handle_analyze env body).statusCode = 500
      ∧ .dispatchContinuation ∉ (handle_analyze env body).events) := by
  constructor
  · intro h202
    refine ⟨?_, by decide⟩
    rcases body with _ | b
    · simp [handle_analyze] at h202
    · rcases hu : b.s3Uri with _ | uri
      · simp [handle_analyze, hu] at h202
      · by_cases hw : (wait_for_s3_object env.headOracle uri 30).result = false
        · simp [handle_analyze, hu, hw] at h202
        · by_cases hput : env.putJobInfoOk = false
          · simp [handle_analyze, hu, hw, hput] at h202
          · by_cases hinv : env.invokeOk = true
            · simp [handle_analyze, hu, hw, hput, hinv]
            · by_cases hpf : env.putFailedOk = true
              · simp [handle_analyze, hu, hw, hput, hinv, hpf] at h202
              · simp [handle_analyze, hu, hw, hput, hinv, hpf] at h202
  · intro b uri hb huri hwait hput
    subst hb
    simp [handle_analyze, huri, hwait, hput]

def analyzeEnvOK : AnalyzeEnv := ⟨fun _ => .found, true, true, true⟩

def analyzeEnvPutFail : AnalyzeEnv := ⟨fun _ => .found, false, true, true⟩

def analyzeEnvInvokeFail : AnalyzeEnv := ⟨fun _ => .found, true, false, true⟩

def analyzeBodyOK : AnalyzeBody := ⟨some "s3://bucket/videos/cat.mp4", "p", "cat"⟩

theorem C3_persist_before_dispatch_witness :
    (handle_analyze analyzeEnvOK (some analyzeBodyOK)).events
      = [.putLedger "InProgress" false, .dispatchContinuation]
  ∧ (handle_analyze analyzeEnvPutFail (some analyzeBodyOK)).statusCode = 500
  ∧ .dispatchContinuation ∉ (handle_analyze analyzeEnvPutFail (some analyzeBodyOK)).events :=
  ⟨((C3_persist_before_dispatch analyzeEnvOK (some analyzeBodyOK)).1 (by decide)).1,
   ((C3_persist_before_dispatch analyzeEnvPutFail (some analyzeBodyOK)).2
      analyzeBodyOK "s3://bucket/videos/cat.mp4" rfl rfl (by decide) rfl).1,
   ((C3_persist_before_dispatch analyzeEnvPutFail (some analyzeBodyOK)).2
      analyzeBodyOK "s3://bucket/videos/cat.mp4" rfl rfl (by decide) rfl).2⟩

/-- Claim **C8** (confirmed).  When the dispatch of the detached continuation fails
after the ledger entry was persisted (and the rewrite write itself succeeds,
as it normally does), the submission path synchronously rewrites the ledger
entry to status `Failed` with an error detail before returning a 500 to the
caller: the final ledger record is `Failed`-with-detail, the trace is the
`InProgress` write followed by the `Failed` rewrite, and no continuation was
dispatched — so the caller is never left a Submitted/InProgress descriptor
for a job that will never run. -/
theorem C8_dispatch_failure_rewrites_ledger (env : AnalyzeEnv)
    (body : Option AnalyzeBody) (b : AnalyzeBody) (uri : String)
    (hb : body = some b) (huri : b.s3Uri = some uri)
    (hwait : (wait_for_s3_object env.headOracle uri 30).result = true)
    (hput : env.putJobInfoOk = true) (hinv : env.invokeOk = false)
    (hpf : env.putFailedOk = true) :
    (handle_analyze env body).statusCode = 500
  ∧ (handle_analyze env body).events
      = [.putLedger "InProgress" false, .putLedger "Failed" true]
  ∧ .dispatchContinuation ∉ (handle_analyze env body).events
  ∧ (handle_analyze env body).ledger = some ("Failed", true) := by
  subst hb
  simp [handle_analyze, huri, hwait, hput, hinv, hpf]

theorem C8_dispatch_failure_rewrites_ledger_witness :
    (handle_analyze analyzeEnvInvokeFail (some analyzeBodyOK)).statusCode = 500
  ∧ (handle_analyze analyzeEnvInvokeFail (some analyzeBodyOK)).events
      = [.putLedger "InProgress" false, .putLedger "Failed" true]
  ∧ (handle_analyze analyzeEnvInvokeFail (some analyzeBodyOK)).ledger
      = some ("Failed", true) := by
  have h := C8_dispatch_failure_rewrites_ledger analyzeEnvInvokeFail
    (some analyzeBodyOK) analyzeBodyOK "s3://bucket/videos/cat.mp4" rfl rfl
    (by decide) rfl rfl rfl
  exact ⟨h.1, h.2.1, h.2.2.2⟩

/-! ## Status resolution (`handle_status` / `handle_analysis_status`)

`s3_client.get_object` outcomes are `S3Get`: the document, a `NoSuchKey`
client error, or any other exception.  The engine's `get_async_invoke` is an
environment `Except` (a `ClientError` maps to HTTP 500).  `StatusResult`
records the HTTP status code, whether the engine status query
(`bedrock_client.get_async_invoke`) was invoked, and the dual-store
materialization outcome when one was performed. -/

inductive S3Get (α : Type) where
  | ok (a : α)
  | noSuchKey
  | raise (msg : String)

structure JobInfoDoc where
  status : String
  videoId : String
  error : String
  submitTime : String

structure AnalysisStatusEnv where
  jobInfo : S3Get JobInfoDoc
  result : S3Get Unit

structure AnalysisStatusResp where
  statusCode : Nat
  bodyStatus : Option String
deriving DecidableEq

/-- Embedding of `handle_analysis_status(analysis_job_id, cors_headers)`:
ledger lookup by job id; missing ledger record is a 404; a `Completed` job
with a missing result blob degrades to a 200 "Completed" response; any other
raise becomes a 500 via the outer handler. -/
def handle_analysis_status (env : AnalysisStatusEnv) (analysis_job_id : String) :
    AnalysisStatusResp :=
  match env.jobInfo with
  | .noSuchKey => ⟨404, none⟩
  | .raise _ => ⟨500, none⟩
  | .ok ji =>
    if ji.status = "Completed" then
      match env.result with
      | .ok _ => ⟨200, some "Completed"⟩
      | .noSuchKey => ⟨200, some "Completed"⟩
      | .raise _ => ⟨500, none⟩
    else ⟨200, some ji.status⟩

structure EmbedStatusEnv where
  /-- models `bedrock_client.get_async_invoke(...)`: the reported status string, or a
  `ClientError` message -/
  getAsync : Except String String
  /-- the `outputDataConfig.s3OutputDataConfig.s3Uri` of the engine response -/
  outputS3Uri : Option String
  /-- fetching and JSON-parsing `{output_s3_uri}/output.json`: the segment
  list `result_data['data']` (empty when the key is absent), or a raise -/
  fetch : Except String (List EmbeddingData)
  /-- the engine response object handed to `store_embeddings_dual` -/
  bedrockResp : BedrockResponse
  osStore : OSStoreEnv
  s3vStore : S3VStoreEnv
  osSt : List OSDocument
  s3vSt : List S3Vector

structure StatusResult where
  statusCode : Nat
  engineInvoked : Bool
  materialized : Option DualStoreResult
deriving DecidableEq

/-- Embedding of `handle_status(event, cors_headers)`: the `analysisJobId`
query parameter (when truthy, i.e. present and non-empty) routes to the
ledger-backed `handle_analysis_status`; otherwise a truthy `invocationArn` is
required (else HTTP 400 before any remote call); the engine path queries
`get_async_invoke` and, on `Completed` with a retrievable non-empty segment
list, performs dual-store materialization (itself wrapped in `try/except`,
so its outcome never changes the 200 status code). -/
def handle_status (analysisJobId invocationArn : Option String)
    (aenv : AnalysisStatusEnv) (eenv : EmbedStatusEnv) : StatusResult :=
  if analysisJobId.getD "" ≠ "" then
    ⟨(handle_analysis_status aenv (analysisJobId.getD "")).statusCode, false, none⟩
  else if invocationArn.getD "" = "" then
    ⟨400, false, none⟩
  else
    match eenv.getAsync with
    | .error _ => ⟨500, true, none⟩
    | .ok status =>
      if status = "Completed" then
        match eenv.outputS3Uri with
        | none => ⟨200, true, none⟩
        | some _ =>
          match eenv.fetch with
          | .error _ => ⟨200, true, none⟩
          | .ok data =>
            if data ≠ [] then
              ⟨200, true,
               some (store_embeddings_dual eenv.osStore eenv.s3vStore eenv.osSt
                 eenv.s3vSt eenv.bedrockResp data).1⟩
            else ⟨200, true, none⟩
      else ⟨200, true, none⟩

/-! ## Claim C10 -/

def aenvW : AnalysisStatusEnv := ⟨.ok ⟨"InProgress", "cat", "", ""⟩, .noSuchKey⟩

def eenvW : EmbedStatusEnv :=
  ⟨.ok "InProgress", none, .error "not fetched", rW, ⟨none, 0⟩, ⟨none, 0⟩, [], []⟩

/-- Claim **C10** (counterexample).  With `analysisJobId` present but equal to the
empty string and an `invocationArn` also supplied, `handle_status` takes the
engine path and invokes `get_async_invoke` — the present `analysisJobId`
parameter is not honoured and the `invocationArn` is not ignored, because the
code tests Python truthiness (`if analysis_job_id:`), under which an empty
string counts as absent. -/
theorem C10_counterexample :
    (handle_status (some "") (some "arn:aws:bedrock:abc") aenvW eenvW).engineInvoked
      = true
  ∧ handle_status (some "") (some "arn:aws:bedrock:abc") aenvW eenvW
      = ⟨200, true, none⟩ := by
  exact ⟨rfl, rfl⟩

/-- Claim **C10** (amended).  For every status request: if the `analysisJobId`
parameter is present and non-empty, the ledger-backed path is taken and the
engine's status query is never invoked (any `invocationArn` is ignored); if
neither `analysisJobId` nor `invocationArn` is present and non-empty (Python
truthiness treats an empty value as absent), the request is rejected with
HTTP 400 before any remote call. -/
theorem C10_status_routing :
    (∀ (j : String) (arn : Option String) (aenv : AnalysisStatusEnv)
        (eenv : EmbedStatusEnv), j ≠ "" →
      handle_status (some j) arn aenv eenv
        = ⟨(handle_analysis_status aenv j).statusCode, false, none⟩)
  ∧ (∀ (aId arn : Option String) (aenv : AnalysisStatusEnv)
        (eenv : EmbedStatusEnv), aId.getD "" = "" → arn.getD "" = "" →
      handle_status aId arn aenv eenv = ⟨400, false, none⟩) := by
  constructor
  · intro j arn aenv eenv hj
    simp [handle_status, hj]
  · intro aId arn aenv eenv ha harn
    simp [handle_status, ha, harn]

theorem C10_status_routing_witness :
    handle_status (some "job1") (some "arn:aws:bedrock:abc") aenvW eenvW
      = ⟨(handle_analysis_status aenvW "job1").statusCode, false, none⟩
  ∧ handle_status none (some "") aenvW eenvW = ⟨400, false, none⟩ :=
  ⟨C10_status_routing.1 "job1" (some "arn:aws:bedrock:abc") aenvW eenvW
     (by decide),
   C10_status_routing.2 none (some "") aenvW eenvW rfl rfl⟩

/-! ## Search handler (`handle_search`)

The query-embedding job is polled with `get_async_invoke` inside
`while waited < max_wait` with `max_wait = 25` and `poll_interval = 1`: at
most 25 polls, one second of sleep after each non-breaking poll.  One poll
observation is:
* `completed (some e)` — status `Completed`, output URI present, and
  `output.json` holds a first datum with an `embedding` list `e` (the loop
  breaks);
* `completed none` — status `Completed` but the output URI or the embedding
  datum is missing (no break: the loop keeps polling);
* `failedSt` / `cancelledSt` — the code raises
  `Embedding generation failed/cancelled`, caught by the surrounding
  `try` and turned into HTTP 500;
* `fetchError m` — status `Completed` with an output URI, but reading
  `output.json` raised `m` (same surrounding `try`, HTTP 500);
* `inProgress` — any other status: sleep and repoll.
The fuel value 25 is exact: fuel exhaustion is precisely `waited = 25`, the
`waited >= max_wait` timeout exit (HTTP 408). -/

inductive EmbedPollObs where
  | completed (emb : Option (List ℚ))
  | failedSt
  | cancelledSt
  | fetchError (msg : String)
  | inProgress
deriving DecidableEq

inductive EmbedLoopOut where
  | got (emb : List ℚ) (waited : Nat)
  | raised (msg : String)
  | timeout
deriving DecidableEq

def embed_poll_go (oracle : Nat → EmbedPollObs) : Nat → Nat → EmbedLoopOut
  | 0, _ => .timeout
  | fuel + 1, waited =>
    match oracle waited with
    | .completed (some e) => .got e waited
    | .completed none => embed_poll_go oracle fuel (waited + 1)
    | .failedSt => .raised "Embedding generation failed"
    | .cancelledSt => .raised "Embedding generation cancelled"
    | .fetchError m => .raised m
    | .inProgress => embed_poll_go oracle fuel (waited + 1)

/-- The polling loop of `handle_search`: `max_wait = 25` seconds in steps of
`poll_interval = 1` second. -/
def embed_poll_loop (oracle : Nat → EmbedPollObs) : EmbedLoopOut :=
  embed_poll_go oracle 25 0

/-- One side of the dual-search comparison as assembled by `handle_search`:
a successful backend search contributes its outcome verbatim, a raising one
contributes `{'results': [], 'total': 0, 'search_time_ms': 0, 'error': msg}`. -/
structure DualSide where
  results : List ResultRow
  total : Nat
  search_time_ms : ℚ
  message : Option String
  error : Option String
deriving DecidableEq

def wrapSearchSide : Except String SearchOutcome → DualSide
  | .ok r => ⟨r.results, r.total, r.search_time_ms, r.message, none⟩
  | .error m => ⟨[], 0, 0, none, some m⟩

structure HandleSearchEnv where
  /-- models `start_async_invoke` for the query embedding: `some msg` raises -/
  startAsyncFail : Option String
  pollOracle : Nat → EmbedPollObs
  osEnv : OSSearchEnv
  s3vEnv : S3VSearchEnv

/-- the `opensearch`/`s3vectors` sides are `none` exactly when no vector query was
issued against that backend. -/
structure HandleSearchResult where
  statusCode : Nat
  opensearch : Option DualSide
  s3vectors : Option DualSide
deriving DecidableEq

/-- Embedding of `handle_search(event, cors_headers)`. -/
def handle_search (env : HandleSearchEnv) (q : String) : HandleSearchResult :=
  if q = "" then ⟨400, none, none⟩
  else
    match env.startAsyncFail with
    | some _ => ⟨500, none, none⟩
    | none =>
      match embed_poll_loop env.pollOracle with
      | .timeout => ⟨408, none, none⟩
      | .raised _ => ⟨500, none, none⟩
      | .got e _ =>
        if e = [] then ⟨500, none, none⟩
        else
          ⟨200, some (wrapSearchSide (search_opensearch env.osEnv e 10)),
           some (wrapSearchSide (search_s3_vectors env.s3vEnv e 10))⟩

theorem embed_poll_go_inProgress (oracle : Nat → EmbedPollObs) :
    ∀ (fuel waited : Nat),
      (∀ t, waited ≤ t → t < waited + fuel → oracle t = .inProgress) →
      embed_poll_go oracle fuel waited = .timeout := by
  intro fuel
  induction fuel with
  | zero => intro waited _; rfl
  | succ fuel ih =>
    intro waited hagree
    unfold embed_poll_go
    rw [hagree waited (le_refl _) (by omega)]
    exact ih (waited + 1) (fun t h1 h2 => hagree t (by omega) (by omega))

theorem embed_poll_go_congr (o o' : Nat → EmbedPollObs) :
    ∀ (fuel waited : Nat), (∀ t, waited ≤ t → t < waited + fuel → o t = o' t) →
      embed_poll_go o fuel waited = embed_poll_go o' fuel waited := by
  intro fuel
  induction fuel with
  | zero => intro waited _; rfl
  | succ fuel ih =>
    intro waited hagree
    unfold embed_poll_go
    rw [hagree waited (le_refl _) (by omega)]
    cases o' waited with
    | completed emb =>
      cases emb with
      | some e => rfl
      | none => exact ih (waited + 1) (fun t h1 h2 => hagree t (by omega) (by omega))
    | failedSt => rfl
    | cancelledSt => rfl
    | fetchError m => rfl
    | inProgress => exact ih (waited + 1) (fun t h1 h2 => hagree t (by omega) (by omega))

/-! ## Claim C5 -/

def c5FailEnv : HandleSearchEnv :=
  ⟨none, fun _ => .failedSt, .indexAbsent, .okVecs [] 0⟩

/-- Claim **C5** (counterexample).  When the query-embedding job reports `Failed`
on the first poll, no `Completed` status is ever observed within the
25-second window, yet `handle_search` returns HTTP 500 ("Failed to generate
embedding"), not the timeout outcome (HTTP 408) the claim requires for every
no-Completed run; no vector query is issued. -/
theorem C5_counterexample :
    (handle_search c5FailEnv "cats").statusCode = 500
  ∧ (handle_search c5FailEnv "cats").statusCode ≠ 408
  ∧ (handle_search c5FailEnv "cats").opensearch = none
  ∧ (handle_search c5FailEnv "cats").s3vectors = none := by
  refine ⟨rfl, by decide, rfl, rfl⟩

/-- Claim **C5** (amended).  The search path's polling is bounded by a hard
25-poll/25-second ceiling: if every poll within the window reports a
non-terminal (`InProgress`-like) status, `handle_search` returns the timeout
outcome HTTP 408 and issues no vector query against either backend.  The
loop's outcome depends only on the first 25 poll observations, so it can
never poll past the ceiling or block indefinitely.  However, a `Failed` or
`Cancelled` status (or a raising result fetch) observed inside the window
ends the search with HTTP 500 — also without any vector query — rather than
the 408 timeout outcome. -/
theorem C5_search_poll_ceiling :
    (∀ (env : HandleSearchEnv) (q : String), q ≠ "" → env.startAsyncFail = none →
      (∀ t, t < 25 → env.pollOracle t = .inProgress) →
      handle_search env q = ⟨408, none, none⟩)
  ∧ (∀ (o o' : Nat → EmbedPollObs), (∀ t, t < 25 → o t = o' t) →
      embed_poll_loop o = embed_poll_loop o')
  ∧ (∀ (env : HandleSearchEnv) (q msg : String), q ≠ "" →
      env.startAsyncFail = none →
      embed_poll_loop env.pollOracle = .raised msg →
      handle_search env q = ⟨500, none, none⟩) := by
  refine ⟨?_, ?_, ?_⟩
  · intro env q hq hstart hprog
    have hloop : embed_poll_loop env.pollOracle = .timeout :=
      embed_poll_go_inProgress env.pollOracle 25 0
        (fun t h1 h2 => hprog t (by omega))
    simp [handle_search, hq, hstart, hloop]
  · intro o o' h
    exact embed_poll_go_congr o o' 25 0 (fun t h1 h2 => h t (by omega))
  · intro env q msg hq hstart hloop
    simp [handle_search, hq, hstart, hloop]

def c5IdleEnv : HandleSearchEnv :=
  ⟨none, fun _ => .inProgress, .indexAbsent, .okVecs [] 0⟩

theorem C5_search_poll_ceiling_witness :
    handle_search c5IdleEnv "cats" = ⟨408, none, none⟩
  ∧ embed_poll_loop (fun _ => .inProgress)
      = embed_poll_loop (fun t => if t < 25 then .inProgress else .failedSt)
  ∧ handle_search c5FailEnv "cats" = ⟨500, none, none⟩ :=
  ⟨(C5_search_poll_ceiling.1 c5IdleEnv "cats" (by decide) rfl (fun t ht => rfl)),
   (C5_search_poll_ceiling.2.1 (fun _ => .inProgress)
      (fun t => if t < 25 then .inProgress else .failedSt)
      (fun t ht => by simp [ht])),
   (C5_search_poll_ceiling.2.2 c5FailEnv "cats" "Embedding generation failed"
      (by decide) rfl rfl)⟩
